import Mathlib

/- Verification of the subtidy core (subtidy_lib.py): tokenizer, state-machine
   parser and layout/generation engine, shallowly embedded over `List Char`.
   Python strings are modelled as `List Char`; Python exceptions as an explicit
   `PyErr` sum; in-place mutation of the parsed document by the renderer is
   modelled by returning the updated document alongside the rendered text. -/

namespace Subtidy

abbrev Str := List Char

/-- Python `str.isspace` characters relevant to `strip`/`lstrip`/`rstrip`. -/
def pyIsSpace (c : Char) : Bool :=
  c == ' ' || c == '\t' || c == '\n' || c == '\r' || c == '\x0b' || c == '\x0c'

/-- Python `str.lstrip()`. -/
def lstrip : Str → Str
  | [] => []
  | c :: t => if pyIsSpace c then lstrip t else c :: t

/-- Python `str.rstrip()`. -/
def rstrip (s : Str) : Str := (lstrip s.reverse).reverse

/-- Python `str.strip()`. -/
def pyStrip (s : Str) : Str := lstrip (rstrip s)

/-- Python `str.startswith`. -/
def hasPre (p s : Str) : Bool := p.isPrefixOf s

/-- Python `str.endswith`. -/
def hasSuf (p s : Str) : Bool := p.isSuffixOf s

/-- Python `s.find(c)` with the negative result already replaced by `len(s)`,
as done at lines 316-330 of subtidy_lib.py. -/
def pyFindD : Str → Char → Nat
  | [], _ => 0
  | c :: t, ch => if c == ch then 0 else pyFindD t ch + 1

/-- Python `str.splitlines()` (for line-oriented input without `\r`). -/
def splitLinesAux : Str → Str → List Str
  | [], acc => if acc.isEmpty then [] else [acc.reverse]
  | c :: t, acc => if c == '\n' then acc.reverse :: splitLinesAux t [] else splitLinesAux t (c :: acc)

def splitLines (s : Str) : List Str := splitLinesAux s []

/-- Decimal rendering of a natural, for f-string interpolation of line/column numbers. -/
def natStr (n : Nat) : Str := (Nat.repr n).data

/-- The Python exceptions that the subtidy core can raise. -/
inductive PyErr where
  | parseError (msg : Str)
  | valueError (msg : Str)
  | typeError
  | attributeError
  | indexError
deriving DecidableEq, Repr

/-- Message prefix used by both `warning` calls and `ParseError`s:
Python `f"{source.name}:{lineno}:{col} {msg}"`. -/
def posMsg (srcName : Str) (lineno col : Nat) (msg : Str) : Str :=
  srcName ++ ":".data ++ natStr lineno ++ ":".data ++ natStr col ++ " ".data ++ msg

/-- Token kinds, mirroring `Tokens = enum.Enum(...)` in subtidy_lib.py. -/
inductive Tokens where
  | comment
  | eol_comment
  | file
  | pattern
  | name
  | open_brace
  | close_brace
  | comma
  | value
  | end_of_file
deriving DecidableEq, Repr

/-- Python `Tokens.<member>.name`. -/
def Tokens.pyName : Tokens → Str
  | .comment => "comment".data
  | .eol_comment => "eol_comment".data
  | .file => "file".data
  | .pattern => "pattern".data
  | .name => "name".data
  | .open_brace => "open_brace".data
  | .close_brace => "close_brace".data
  | .comma => "comma".data
  | .value => "value".data
  | .end_of_file => "end_of_file".data

/-- A token tuple `(token type, literal, line number, col number)`. -/
structure Token where
  kind : Tokens
  literal : Str
  lineno : Nat
  col : Nat
deriving DecidableEq, Repr

/-- Characters allowed in a `name` token: Python
`c.isalnum() or c in "_+-:"` (ASCII reading of `isalnum`). -/
def isNameChar (c : Char) : Bool :=
  c.isAlphanum || c == '_' || c == '+' || c == '-' || c == ':'

/-- The inner `while len(temp) > 0` scanning loop of `get_token` for one line.
`fuel` bounds the number of iterations: every iteration consumes at least one
character of `temp`, so `temp.length + 1` fuel mirrors the Python loop exactly
(the zero-fuel case is unreachable at the call site below). Returns the tokens
of the line together with the final value of the `col` variable. -/
def scanLine (srcName : Str) (lineno size : Nat) : Nat → Str → Nat → Except PyErr (List Token × Nat)
  | _, [], colIn => .ok ([], colIn)
  | 0, _ :: _, colIn => .ok ([], colIn)
  | fuel + 1, temp@(_ :: rest), _ =>
    let col := size - temp.length
    if hasPre "#".data temp then
      -- an end of line comment consumes the remainder of the line
      .ok ([⟨.eol_comment, rstrip temp, lineno, col⟩], col)
    else if hasPre "file".data temp then
      match scanLine srcName lineno size fuel (lstrip (temp.drop 4)) col with
      | .error e => .error e
      | .ok (ts, cEnd) => .ok (⟨.file, [], lineno, col⟩ :: ts, cEnd)
    else if hasPre "pattern".data temp then
      match scanLine srcName lineno size fuel (lstrip (temp.drop 7)) col with
      | .error e => .error e
      | .ok (ts, cEnd) => .ok (⟨.pattern, [], lineno, col⟩ :: ts, cEnd)
    else if hasPre "\x7b".data temp then
      match scanLine srcName lineno size fuel (lstrip (temp.drop 1)) col with
      | .error e => .error e
      | .ok (ts, cEnd) => .ok (⟨.open_brace, [], lineno, col⟩ :: ts, cEnd)
    else if hasPre "\x7d".data temp then
      match scanLine srcName lineno size fuel (lstrip (temp.drop 1)) col with
      | .error e => .error e
      | .ok (ts, cEnd) => .ok (⟨.close_brace, [], lineno, col⟩ :: ts, cEnd)
    else if hasPre ",".data temp then
      match scanLine srcName lineno size fuel (lstrip (temp.drop 1)) col with
      | .error e => .error e
      | .ok (ts, cEnd) => .ok (⟨.comma, [], lineno, col⟩ :: ts, cEnd)
    else if hasPre "\"".data temp then
      -- a quoted value: find the end quote (Python `temp.find('"', 1)`)
      match rest.findIdx? (fun c => c == '"') with
      | none => .error (.parseError (posMsg srcName lineno col "value missing trailing \"".data))
      | some i =>
        -- absolute index of the closing quote is i+1; include the quote character
        let q := i + 2
        match scanLine srcName lineno size fuel (lstrip (temp.drop q)) col with
        | .error e => .error e
        | .ok (ts, cEnd) => .ok (⟨.value, temp.take q, lineno, col⟩ :: ts, cEnd)
    else
      -- a name or unquoted value, extending to the nearest comma, brace or space
      let a1 := pyFindD temp ','
      let a2 := pyFindD temp '{'
      let a3 := pyFindD temp '}'
      let a4 := pyFindD temp ' '
      let a := min (min a1 a2) (min a3 a4)
      let text := rstrip (temp.take a)
      let kind := if text.all isNameChar then Tokens.name else Tokens.value
      match scanLine srcName lineno size fuel (lstrip (temp.drop a)) col with
      | .error e => .error e
      | .ok (ts, cEnd) => .ok (⟨kind, text, lineno, col⟩ :: ts, cEnd)

/-- The per-line dispatch of `get_token`: blank and `#` lines yield a single
comment token; other lines are scanned by the inner loop. Threads the Python
`lineno` and `col` variables through to the end of the input. -/
def tokenizeLines (srcName : Str) : List Str → Nat → Nat → Except PyErr (List Token × Nat × Nat)
  | [], lineno, col => .ok ([], lineno, col)
  | line :: restLines, lineno, _ =>
    let ln := lineno + 1
    let t0 := rstrip line
    let size := t0.length + 1
    let t1 := lstrip t0
    if t1.isEmpty || hasPre "#".data t1 then
      match tokenizeLines srcName restLines ln 0 with
      | .error e => .error e
      | .ok (ts, l, c) => .ok (⟨.comment, rstrip line, ln, 0⟩ :: ts, l, c)
    else
      match scanLine srcName ln size (t1.length + 1) t1 0 with
      | .error e => .error e
      | .ok (lineToks, colEnd) =>
        match tokenizeLines srcName restLines ln colEnd with
        | .error e => .error e
        | .ok (ts, l, c) => .ok (lineToks ++ ts, l, c)

/-- The generator `get_token`: tokenise the source text, ending with one explicit
end-of-file token. -/
def get_token (srcName text : Str) : Except PyErr (List Token) :=
  match tokenizeLines srcName (splitLines text) 0 0 with
  | .error e => .error e
  | .ok (ts, lineno, col) => .ok (ts ++ [⟨.end_of_file, [], lineno, col⟩])

/-- The `with_comment` namedtuple: a value optionally wrapped with a trailing
end-of-line comment. `plain` is a bare Python value, `wc` is
`with_comment(item, comment)`. -/
inductive Ann (α : Type) where
  | plain (item : α)
  | wc (item : α) (comment : Str)
deriving DecidableEq, Repr

/-- The `.item` field access; on a `plain` value it is the value itself. -/
def Ann.item {α : Type} : Ann α → α
  | .plain a => a
  | .wc a _ => a

/-- One entry of the `actual` list of a substitution dictionary: either a raw
comment/blank line (a Python `str`) or a row of values (a Python `list`,
optionally wrapped in `with_comment`). -/
inductive ActualItem where
  | comment (s : Str)
  | row (r : Ann (List Str))
deriving DecidableEq, Repr

/-- The dictionary `d` built at the `close_brace` transition of
`process_source` (lines 510-517). Fields are `Option`s because the parser's
local variables are initialised to `None`; `None` stored in the dictionary is
faithfully represented, and consumers raise the corresponding Python
exception on it. -/
structure Subst where
  template : Option (Ann Str)
  comments : Option (List Str)
  formal : Option (Ann (List Str))
  actual : Option (List ActualItem)
  eos_comment : Option Str
deriving DecidableEq, Repr

/-- One item of the parsed document (`result` list): a raw comment/blank line
or a substitution dictionary. -/
inductive DocItem where
  | line (s : Str)
  | sub (d : Subst)
deriving DecidableEq, Repr

/-- Parser states, mirroring `States = enum.Enum(...)` in `process_source`. -/
inductive States where
  | seek_file
  | start1
  | start2
  | seek_pattern
  | start_formal
  | seek_name
  | post_name
  | start_actual_first
  | start_actual_next
  | seek_value
  | post_value
deriving DecidableEq, Repr

/-- Python `States.<member>.name`. -/
def States.pyName : States → Str
  | .seek_file => "seek_file".data
  | .start1 => "start1".data
  | .start2 => "start2".data
  | .seek_pattern => "seek_pattern".data
  | .start_formal => "start_formal".data
  | .seek_name => "seek_name".data
  | .post_name => "post_name".data
  | .start_actual_first => "start_actual_first".data
  | .start_actual_next => "start_actual_next".data
  | .seek_value => "seek_value".data
  | .post_value => "post_value".data

/-- The local variables of `process_source` between two loop iterations. -/
structure PConfig where
  result : List DocItem
  state : States
  template : Option (Ann Str)
  comments : Option (List Str)
  formal : Option (Ann (List Str))
  actual : Option (List ActualItem)
  actual_row : Option (List Str)
  eos_comment : Option Str
deriving DecidableEq, Repr

/-- The initial parser configuration (lines 366-374). -/
def initConfig : PConfig :=
  { result := []
    state := .seek_file
    template := none
    comments := none
    formal := none
    actual := none
    actual_row := none
    eos_comment := none }

/-- Outcome of one iteration of the parser loop: continue with warnings
emitted to stderr, break out of the loop, or raise an exception. -/
inductive StepOut where
  | cont (c : PConfig) (warns : List Str)
  | halt (c : PConfig)
  | err (e : PyErr)
deriving Repr

/-- Python `last = len(formal) - 1; last_name = formal[last]` on the parser's
`formal` variable: `len(None)` raises TypeError; on a `with_comment` (a tuple
of length 2) index 1 is the comment field; on an empty list `[-1]` raises
IndexError. -/
def lastOfFormal : Option (Ann (List Str)) → Except PyErr Str
  | none => .error .typeError
  | some (.wc _ c) => .ok c
  | some (.plain l) =>
    match l.getLast? with
    | some x => .ok x
    | none => .error .indexError

/-- Python `last = len(actual_row) - 1; last_value = actual_row[last]`:
`len(None)` raises TypeError, `[][-1]` raises IndexError. -/
def lastOfRow : Option (List Str) → Except PyErr Str
  | none => .error .typeError
  | some l =>
    match l.getLast? with
    | some x => .ok x
    | none => .error .indexError

/-- One iteration of the `for token, literal, lineno, col in get_token(source)`
loop of `process_source`: the if/elif dispatch on the `(state, token)` pair.
Every branch of the Python chain appears here in source order; the final
catch-all is the `else` that raises `ParseError`. Branches marked unreachable
concern `with_comment` re-wrapping that no line-based token stream can
trigger (a second eol_comment cannot arrive in the same state, because a line
whose first token is a comment is a whole-line comment token). -/
def parseStep (srcName : Str) (cfg : PConfig) (t : Token) : StepOut :=
  match cfg.state, t.kind with
  | .seek_file, .comment =>
    .cont { cfg with result := cfg.result ++ [.line t.literal] } []
  | .seek_file, .end_of_file =>
    .halt cfg
  | .seek_file, .file =>
    .cont { cfg with comments := some [], formal := some (.plain []),
                     actual := some [], state := .start1 } []
  | .seek_file, .eol_comment =>
    -- result[len(result) - 1]['eos_comment'] = literal
    (match cfg.result.getLast? with
     | none => .err .indexError
     | some (.line _) => .err .typeError
     | some (.sub d) =>
       .cont { cfg with result := cfg.result.dropLast ++ [.sub { d with eos_comment := some t.literal }] } [])
  | .start1, .value =>
    .cont { cfg with template := some (.plain t.literal), state := .start2 } []
  | .start2, .open_brace =>
    .cont { cfg with state := .seek_pattern } []
  | .seek_pattern, .eol_comment =>
    -- template = with_comment(template, literal); the non-plain cases are unreachable
    (match cfg.template with
     | some (.plain s) => .cont { cfg with template := some (.wc s t.literal) } []
     | some (.wc s _) => .cont { cfg with template := some (.wc s t.literal) } []
     | none => .cont { cfg with template := some (.wc [] t.literal) } [])
  | .seek_pattern, .comment =>
    (match cfg.comments with
     | none => .err .attributeError
     | some l => .cont { cfg with comments := some (l ++ [t.literal]) } [])
  | .seek_pattern, .pattern =>
    .cont { cfg with state := .start_formal } []
  | .start_formal, .open_brace =>
    .cont { cfg with state := .seek_name } []
  | .seek_name, .name =>
    (match cfg.formal with
     | some (.plain l) =>
       .cont { cfg with formal := some (.plain (l ++ [t.literal])), state := .post_name } []
     | some (.wc _ _) => .err .attributeError
     | none => .err .attributeError)
  | .seek_name, .comma =>
    (match lastOfFormal cfg.formal with
     | .error e => .err e
     | .ok last_name =>
       .cont { cfg with state := .seek_name }
         [posMsg srcName t.lineno t.col
           ("extra comma following macro name ".data ++ last_name ++ " removed".data)])
  | .seek_name, .close_brace =>
    (match lastOfFormal cfg.formal with
     | .error e => .err e
     | .ok last_name =>
       .cont { cfg with state := .start_actual_first }
         [posMsg srcName t.lineno t.col
           ("extra comma following macro name ".data ++ last_name ++ " removed".data)])
  | .post_name, .name =>
    (match lastOfFormal cfg.formal with
     | .error e => .err e
     | .ok last_name =>
       match cfg.formal with
       | some (.plain l) =>
         .cont { cfg with formal := some (.plain (l ++ [t.literal])), state := .post_name }
           [posMsg srcName t.lineno t.col
             ("missing comma between macro names ".data ++ last_name ++ " and ".data ++ t.literal)]
       | some (.wc _ _) => .err .attributeError
       | none => .err .attributeError)
  | .post_name, .comma =>
    .cont { cfg with state := .seek_name } []
  | .post_name, .close_brace =>
    .cont { cfg with state := .start_actual_first } []
  | .start_actual_first, .eol_comment =>
    -- formal = with_comment(formal, literal); the non-plain cases are unreachable
    (match cfg.formal with
     | some (.plain l) => .cont { cfg with formal := some (.wc l t.literal) } []
     | some (.wc l _) => .cont { cfg with formal := some (.wc l t.literal) } []
     | none => .cont { cfg with formal := some (.wc [] t.literal) } [])
  | .start_actual_next, .eol_comment =>
    -- actual[last] = with_comment(actual[last], literal)
    (match cfg.actual with
     | none => .err .typeError
     | some a =>
       match a.getLast? with
       | none => .err .indexError
       | some (.row (.plain r)) =>
         .cont { cfg with actual := some (a.dropLast ++ [.row (.wc r t.literal)]) } []
       | some (.row (.wc r _)) =>
         -- unreachable nesting of with_comment
         .cont { cfg with actual := some (a.dropLast ++ [.row (.wc r t.literal)]) } []
       | some (.comment s) =>
         -- unreachable: wrapping a raw comment string
         .cont { cfg with actual := some (a.dropLast ++ [.comment s]) } [])
  | .start_actual_first, .comment =>
    (match cfg.actual with
     | none => .err .attributeError
     | some a => .cont { cfg with actual := some (a ++ [.comment t.literal]) } [])
  | .start_actual_next, .comment =>
    (match cfg.actual with
     | none => .err .attributeError
     | some a => .cont { cfg with actual := some (a ++ [.comment t.literal]) } [])
  | .start_actual_first, .open_brace =>
    .cont { cfg with actual_row := some [], state := .seek_value } []
  | .start_actual_next, .open_brace =>
    .cont { cfg with actual_row := some [], state := .seek_value } []
  | .seek_value, .value =>
    (match cfg.actual_row with
     | none => .err .attributeError
     | some r => .cont { cfg with actual_row := some (r ++ [t.literal]), state := .post_value } [])
  | .seek_value, .name =>
    (match cfg.actual_row with
     | none => .err .attributeError
     | some r => .cont { cfg with actual_row := some (r ++ [t.literal]), state := .post_value } [])
  | .seek_value, .comma =>
    (match lastOfRow cfg.actual_row with
     | .error e => .err e
     | .ok last_value =>
       .cont { cfg with state := .seek_value }
         [posMsg srcName t.lineno t.col
           ("extra comma following value ".data ++ last_value ++ " removed".data)])
  | .seek_value, .close_brace =>
    (match lastOfRow cfg.actual_row with
     | .error e => .err e
     | .ok last_value =>
       match cfg.actual, cfg.actual_row with
       | some a, some r =>
         .cont { cfg with actual := some (a ++ [.row (.plain r)]), actual_row := none,
                          state := .start_actual_next }
           [posMsg srcName t.lineno t.col
             ("extra comma following value ".data ++ last_value ++ " removed".data)]
       | none, _ => .err .attributeError
       | _, none => .err .attributeError)
  | .post_value, .value =>
    (match lastOfRow cfg.actual_row with
     | .error e => .err e
     | .ok last_value =>
       match cfg.actual_row with
       | some r =>
         .cont { cfg with actual_row := some (r ++ [t.literal]), state := .post_value }
           [posMsg srcName t.lineno t.col
             ("missing comma between values ".data ++ last_value ++ " and ".data ++ t.literal)]
       | none => .err .attributeError)
  | .post_value, .name =>
    (match lastOfRow cfg.actual_row with
     | .error e => .err e
     | .ok last_value =>
       match cfg.actual_row with
       | some r =>
         .cont { cfg with actual_row := some (r ++ [t.literal]), state := .post_value }
           [posMsg srcName t.lineno t.col
             ("missing comma between values ".data ++ last_value ++ " and ".data ++ t.literal)]
       | none => .err .attributeError)
  | .post_value, .comma =>
    .cont { cfg with state := .seek_value } []
  | .post_value, .close_brace =>
    (match cfg.actual with
     | none => .err .attributeError
     | some a =>
       let rowItem : ActualItem :=
         match cfg.actual_row with
         | some r => .row (.plain r)
         | none => .row (.plain [])  -- unreachable: Python would append None
       .cont { cfg with actual := some (a ++ [rowItem]), actual_row := none,
                        state := .start_actual_next } [])
  | .start_actual_first, .close_brace =>
    .cont { cfg with
              result := cfg.result ++ [.sub ⟨cfg.template, cfg.comments, cfg.formal, cfg.actual, cfg.eos_comment⟩]
              template := none, comments := none, formal := none, actual := none,
              eos_comment := none, state := .seek_file } []
  | .start_actual_next, .close_brace =>
    .cont { cfg with
              result := cfg.result ++ [.sub ⟨cfg.template, cfg.comments, cfg.formal, cfg.actual, cfg.eos_comment⟩]
              template := none, comments := none, formal := none, actual := none,
              eos_comment := none, state := .seek_file } []
  | _, _ =>
    .err (.parseError (posMsg srcName t.lineno t.col
      ("unexpected state/token combination: ".data ++ cfg.state.pyName ++ "/".data ++ t.kind.pyName)))

/-- The full token-consuming loop of `process_source`, returning the `result`
list together with the warnings printed to stderr, in emission order. -/
def runParse (srcName : Str) : List Token → PConfig → Except PyErr (List DocItem × List Str)
  | [], cfg => .ok (cfg.result, [])
  | t :: ts, cfg =>
    match parseStep srcName cfg t with
    | .halt c => .ok (c.result, [])
    | .err e => .error e
    | .cont c ws =>
      match runParse srcName ts c with
      | .error e => .error e
      | .ok (res, ws') => .ok (res, ws ++ ws')

/-- The parser `process_source`, consuming a token stream from the initial configuration. -/
def process_source (srcName : Str) (toks : List Token) : Except PyErr (List DocItem × List Str) :=
  runParse srcName toks initConfig

/-- The function `quote_str`: pre-fix and post-fix `value` with a double quote, but only if
it neither starts nor ends with one. -/
def quote_str (value : Str) : Str :=
  if !(hasPre "\"".data value) && !(hasSuf "\"".data value) then
    "\"".data ++ value ++ "\"".data
  else value

/-- One escaped character of Python `repr` for a string quoted with `q`
(printable input characters assumed). -/
def pyEscChar (q c : Char) : Str :=
  if c == '\\' then "\\\\".data
  else if c == q then ['\\', q]
  else if c == '\n' then "\\n".data
  else if c == '\t' then "\\t".data
  else if c == '\r' then "\\r".data
  else [c]

/-- Python `repr` of a string: single quotes, unless the string contains a
single quote but no double quote. -/
def pyReprStr (s : Str) : Str :=
  let q : Char := if s.contains '\'' && !(s.contains '"') then '"' else '\''
  [q] ++ (s.map (pyEscChar q)).flatten ++ [q]

def joinSep (sep : Str) : List Str → Str
  | [] => []
  | [x] => x
  | x :: y :: xs => x ++ sep ++ joinSep sep (y :: xs)

/-- Python `str` of a list of strings, as interpolated by an f-string. -/
def pyReprStrList (l : List Str) : Str :=
  "[".data ++ joinSep ", ".data (l.map pyReprStr) ++ "]".data

/-- The `ValueError` message of `generate_substitution` line 154:
`f"{row} has {n} items, {number} expected"`. -/
def mismatchMsg (r : List Str) (number : Nat) : Str :=
  pyReprStrList r ++ " has ".data ++ natStr r.length ++ " items, ".data
    ++ natStr number ++ " expected".data

/-- The inner `for j, value in enumerate(row)` loop of lines 156-161: quote
each value in place and widen that column's width. The row and the width list
always have the same length at the call site (the row length was checked
against `number` and the width list has `number` entries). -/
def quoteRow : List Str → List Nat → (List Str × List Nat)
  | [], ws => ([], ws)
  | v :: vs, [] =>
    -- unreachable: the row length equals the widths length
    let out := quoteRow vs []
    (quote_str v :: out.1, out.2)
  | v :: vs, w :: ws =>
    let v' := quote_str v
    let out := quoteRow vs ws
    (v' :: out.1, max w v'.length :: out.2)

/-- The `for row in actual` loop of lines 145-161: skip comment strings, check
each row's length against `number` (raising `ValueError` on mismatch), then
quote the row's values in place and update the column widths. Returns the
mutated `actual` list and the final widths. -/
def widthsLoop (number : Nat) : List ActualItem → List Nat → Except PyErr (List ActualItem × List Nat)
  | [], ws => .ok ([], ws)
  | .comment s :: rest, ws =>
    match widthsLoop number rest ws with
    | .error e => .error e
    | .ok (rest', ws') => .ok (.comment s :: rest', ws')
  | .row ann :: rest, ws =>
    let r := ann.item
    if r.length ≠ number then
      .error (.valueError (mismatchMsg r number))
    else
      let out := quoteRow r ws
      let ann' : Ann (List Str) :=
        match ann with
        | .plain _ => .plain out.1
        | .wc _ c => .wc out.1 c
      match widthsLoop number rest out.2 with
      | .error e => .error e
      | .ok (rest', ws') => .ok (.row ann' :: rest', ws')

/-- The wrap-point computation of lines 166-172: accumulate
`width + spacing + 1` per column into a running total seeded at 10, marking
the column and resetting the total whenever it exceeds the maximum width. -/
def calcNewlinesAux (spacing width : Nat) : List Nat → Nat → Nat → List Nat
  | [], _, _ => []
  | w :: ws, j, total =>
    let t := total + w + spacing + 1
    if t > width then j :: calcNewlinesAux spacing width ws (j + 1) 10
    else calcNewlinesAux spacing width ws (j + 1) t

def calcNewlines (widths : List Nat) (spacing width : Nat) : List Nat :=
  calcNewlinesAux spacing width widths 0 10

/-- Spaces: Python `n * " "`. -/
def repl (n : Nat) (c : Char) : Str := List.replicate n c

/-- The `for j, name in enumerate(item)` loop of `generate_row` (lines 82-96):
emit each value, a comma plus the spacing gap when it is not the last, and
either the alignment gap or a line break with a re-indented continuation. -/
def rowCellsAux (number : Nat) (widths : List Nat) (spaces : Str) (newlines : List Nat)
    (plen : Nat) : Nat → List Str → Str
  | _, [] => []
  | j, nm :: rest =>
    let w := widths.getD j 0
    let gap := repl (w - nm.length) ' '
    nm ++ (if j < number - 1 then ",".data ++ spaces else [])
       ++ (if j ∈ newlines ∧ j < number - 1 then
             "\n".data ++ repl plen ' ' ++ "   ".data
           else gap)
       ++ rowCellsAux number widths spaces newlines plen (j + 1) rest

/-- The function `generate_row`: render one formal or actual row (with optional trailing
comment) to the target text. -/
def generate_row (item : Ann (List Str)) (widths : List Nat) (pfx spaces : Str)
    (newlines : List Nat) : Str :=
  let names := item.item
  let c : Option Str := match item with
    | .wc _ cc => some cc
    | .plain _ => none
  pfx ++ " \x7b ".data
      ++ rowCellsAux names.length widths spaces newlines pfx.length 0 names
      ++ (match c with
          | none => " \x7d\n".data
          | some cc => " \x7d  ".data ++ cc ++ "\n".data)

/-- The function `generate_substitution`: render one substitution dictionary. Mutation of
the actual rows (quoting in place, line 158) is modelled by returning the
updated dictionary next to the rendered text. Error order follows the source:
the debug block at lines 124-130 iterates `actual` unconditionally, so a
`None` actual raises TypeError before `formal` is inspected. -/
def generate_substitution (d : Subst) (indent spacing width : Nat) :
    Except PyErr (Str × Subst) :=
  let i := repl indent ' '
  let s := repl spacing ' '
  match d.actual with
  | none => .error .typeError
  | some actual0 =>
    match d.formal with
    | none => .error .typeError
    | some fAnn =>
      let f2 := fAnn.item
      let number := f2.length
      let widths0 := f2.map List.length
      match widthsLoop number actual0 widths0 with
      | .error e => .error e
      | .ok (actual', widths) =>
        let newlines := calcNewlines widths spacing width
        match d.template with
        | none => .error .attributeError
        | some tAnn =>
          let head : Str :=
            match tAnn with
            | .wc tpl c => "file ".data ++ quote_str tpl ++ " \x7b  ".data ++ c ++ "\n".data
            | .plain tpl => "file ".data ++ quote_str tpl ++ " \x7b\n".data
          match d.comments with
          | none => .error .typeError
          | some cmts =>
            let cmtsOut : Str :=
              (cmts.map (fun c =>
                (if hasPre " ".data c then "    ".data ++ lstrip c else c) ++ "\n".data)).flatten
            let formalOut := generate_row fAnn widths (i ++ "pattern".data) s newlines
            let actualOut : Str :=
              (actual'.map (fun it =>
                match it with
                | .comment row =>
                  (if hasPre " ".data row then "            ".data ++ lstrip row else row)
                    ++ "\n".data
                | .row ann => generate_row ann widths (i ++ repl 7 ' ') s newlines)).flatten
            let tail : Str :=
              match d.eos_comment with
              | none => "\x7d\n".data
              | some c => "\x7d  ".data ++ c ++ "\n".data
            .ok (head ++ cmtsOut ++ formalOut ++ actualOut ++ tail,
                 { d with actual := some actual' })

/-- The function `generate`: render the whole document, strings stripped and printed as is,
dictionaries via `generate_substitution`. The mutated document is returned. -/
def generate (source : List DocItem) (indent spacing width : Nat) :
    Except PyErr (Str × List DocItem) :=
  match source with
  | [] => .ok ([], [])
  | .line s :: rest =>
    match generate rest indent spacing width with
    | .error e => .error e
    | .ok (o, rest') => .ok (pyStrip s ++ "\n".data ++ o, .line s :: rest')
  | .sub d :: rest =>
    match generate_substitution d indent spacing width with
    | .error e => .error e
    | .ok (o, d') =>
      match generate rest indent spacing width with
      | .error e => .error e
      | .ok (o2, rest') => .ok (o ++ o2, .sub d' :: rest')

/-- The function `process`: the whole pipeline from source text to rendered text (plus the
warnings emitted while parsing). -/
def process (srcName text : Str) (indent spacing width : Nat) :
    Except PyErr (Str × List Str) :=
  match get_token srcName text with
  | .error e => .error e
  | .ok toks =>
    match process_source srcName toks with
    | .error e => .error e
    | .ok (doc, warns) =>
      match generate doc indent spacing width with
      | .error e => .error e
      | .ok (out, _) => .ok (out, warns)

/-- The parsing half of the pipeline (reading and `process_source`, as in
`process_file`). -/
def parse_text (srcName text : Str) : Except PyErr (List DocItem × List Str) :=
  match get_token srcName text with
  | .error e => .error e
  | .ok toks => process_source srcName toks

/-- The `(state, token)` pairs enumerated by the if/elif chain of
`process_source`. Everything else falls through to the `else` that raises
`ParseError`. -/
def handledPair : States → Tokens → Bool
  | .seek_file, .comment => true
  | .seek_file, .end_of_file => true
  | .seek_file, .file => true
  | .seek_file, .eol_comment => true
  | .start1, .value => true
  | .start2, .open_brace => true
  | .seek_pattern, .eol_comment => true
  | .seek_pattern, .comment => true
  | .seek_pattern, .pattern => true
  | .start_formal, .open_brace => true
  | .seek_name, .name => true
  | .seek_name, .comma => true
  | .seek_name, .close_brace => true
  | .post_name, .name => true
  | .post_name, .comma => true
  | .post_name, .close_brace => true
  | .start_actual_first, .eol_comment => true
  | .start_actual_next, .eol_comment => true
  | .start_actual_first, .comment => true
  | .start_actual_next, .comment => true
  | .start_actual_first, .open_brace => true
  | .start_actual_next, .open_brace => true
  | .seek_value, .value => true
  | .seek_value, .name => true
  | .seek_value, .comma => true
  | .seek_value, .close_brace => true
  | .post_value, .value => true
  | .post_value, .name => true
  | .post_value, .comma => true
  | .post_value, .close_brace => true
  | .start_actual_first, .close_brace => true
  | .start_actual_next, .close_brace => true
  | _, _ => false

/-- The in-place quoting that the widths pass applies to one `actual` entry:
comment strings are untouched, row values are replaced by `quote_str` of
themselves (the `with_comment` wrapper is preserved). -/
def quoteActualItem : ActualItem → ActualItem
  | .comment s => .comment s
  | .row (.plain r) => .row (.plain (r.map quote_str))
  | .row (.wc r c) => .row (.wc (r.map quote_str) c)

/-- The effect of rendering on one document item: raw lines are untouched,
each substitution has its actual rows quoted in place. -/
def quoteDocItem : DocItem → DocItem
  | .line s => .line s
  | .sub d => .sub { d with actual := d.actual.map (List.map quoteActualItem) }

/-- The length of the last (still open) line of an emitted text: the number
of characters after the last newline. This measures the column at which the
next character would be printed. -/
def lineLen (s : Str) : Nat := (s.reverse.takeWhile (fun c => c != '\n')).length

/-- The visible column at which the value in position `j` of a row begins in
the output of `generate_row`: the rendered text of `generate_row` is
`pfx ++ " { " ++ rowCellsAux ... names ++ tail`, the cells split at any
position, and the value `j` is printed immediately after the cells of the
first `j` values, so its start column is the length of the open line at that
point. -/
def rowStartCol (item : Ann (List Str)) (widths : List Nat) (pfx spaces : Str)
    (newlines : List Nat) (j : Nat) : Nat :=
  lineLen (pfx ++ " \x7b ".data
    ++ rowCellsAux item.item.length widths spaces newlines pfx.length 0 (item.item.take j))

/-- Closed form of the start column of value `j`: the prefix plus " { " for
the first value and after every wrap point, otherwise the previous start
column advanced by the column width, the comma and the spacing. -/
def colAfter (plen sp : Nat) (widths : List Nat) (newlines : List Nat) (number : Nat) : Nat → Nat
  | 0 => plen + 3
  | j + 1 =>
    if j ∈ newlines ∧ j < number - 1 then plen + 3
    else colAfter plen sp widths newlines number j + widths.getD j 0 + 1 + sp

/-- The running totals of the wrap-point computation, one entry per column:
the same recursion as `calcNewlinesAux`, recording the total after each
column (10 right after a marked column). -/
def wrapTotalsAux (spacing width : Nat) : List Nat → Nat → List Nat
  | [], _ => []
  | w :: ws, total =>
    let t := total + w + spacing + 1
    if t > width then 10 :: wrapTotalsAux spacing width ws 10
    else t :: wrapTotalsAux spacing width ws t

def wrapTotals (widths : List Nat) (spacing width : Nat) : List Nat :=
  wrapTotalsAux spacing width widths 10

/-- Indices of the entries equal to 10 (the reset value) in a totals list. -/
def tensIdx : List Nat → Nat → List Nat
  | [], _ => []
  | t :: ts, j => if t = 10 then j :: tensIdx ts (j + 1) else tensIdx ts (j + 1)

/- Concrete inputs and outputs used by the closed theorems below. -/

/-- A valid input whose unquoted actual value contains an embedded double
quote: `ab"cd`. -/
def embQuoteIn : Str :=
  "file \"t.db\" \x7b\n    pattern \x7b X \x7d\n    \x7b ab\"cd \x7d\n\x7d\n".data

/-- What one pass of `process` makes of `embQuoteIn`. -/
def embQuoteOut : Str :=
  "file \"t.db\" \x7b\n    pattern \x7b X       \x7d\n            \x7b \"ab\"cd\" \x7d\n\x7d\n".data

/-- The spec scenario input of section 8: four lines with one-space inner
indentation. -/
def scenarioIn : Str :=
  "file \"a.db\" \x7b\n pattern \x7b X, Y \x7d\n \x7b \"1\", \"2\" \x7d\n\x7d\n".data

/-- The output the spec claims for `scenarioIn`. -/
def scenarioClaimedOut : Str :=
  "file \"a.db\" \x7b\n    pattern \x7b X, Y \x7d\n            \x7b \"1\", \"2\" \x7d\n\x7d\n".data

/-- The output the code actually produces for `scenarioIn`: columns are
padded to the quoted value widths and commas are followed by the two
`spacing` blanks plus the alignment gap. -/
def scenarioRealOut : Str :=
  "file \"a.db\" \x7b\n    pattern \x7b X,    Y   \x7d\n            \x7b \"1\",  \"2\" \x7d\n\x7d\n".data

/-- An input whose single actual value `ab"` ends (but does not start) with a
double quote. -/
def halfQuoteIn : Str :=
  "file \"t\" \x7b\npattern \x7b X \x7d\n\x7b ab\" \x7d\n\x7d\n".data

/-- Rendering of `halfQuoteIn`: the value `ab"` is emitted without any added
quotes. -/
def halfQuoteOut : Str :=
  "file \"t\" \x7b\n    pattern \x7b X   \x7d\n            \x7b ab\" \x7d\n\x7d\n".data

/-- A 49-character quoted value (47 letters plus its two quotes). -/
def wideVal : Str :=
  "\"aaaaaaaaaaaaaaaaaaaaaaaaaaaaaaaaaaaaaaaaaaaaaaa\"".data

/-- Input with one formal name and the single 49-character value: rendered at
width 60 its row lines are 65 characters long. -/
def wideIn : Str :=
  "file \"t\" \x7b\npattern \x7b X \x7d\n\x7b ".data ++ wideVal ++ " \x7d\n\x7d\n".data

/-- Rendering of `wideIn` at width 60. -/
def wideOut : Str :=
  "file \"t\" \x7b\n    pattern \x7b X                                                 \x7d\n            \x7b ".data
    ++ wideVal ++ " \x7d\n\x7d\n".data

/-- The trailing-comma scenario of the spec: a formal list closed by `, }`. -/
def trailingCommaIn : Str :=
  "file \"a.db\" \x7b\npattern \x7b X, Y, \x7d\n\x7d\n".data

/-- The single block that `trailingCommaIn` parses to. -/
def trailingCommaBlock : Subst :=
  { template := some (.plain "\"a.db\"".data)
    comments := some []
    formal := some (.plain [['X'], ['Y']])
    actual := some []
    eos_comment := none }

/-- An input whose only anomaly is an extra comma before the FIRST macro
name: `pattern { , X }`. -/
def leadingCommaNameIn : Str :=
  "file \"t\" \x7b\npattern \x7b , X \x7d\n\x7d\n".data

/-- An input whose only anomaly is an extra comma before the FIRST value of
an actual row: `{ , "1" }`. -/
def leadingCommaValueIn : Str :=
  "file \"t\" \x7b\npattern \x7b X \x7d\n\x7b , \"1\" \x7d\n\x7d\n".data

/-- An input whose actual row has one value while the formal row has two. -/
def mismatchIn : Str :=
  "file \"t\" \x7b\npattern \x7b X, Y \x7d\n\x7b \"1\" \x7d\n\x7d\n".data

/-- The block that `mismatchIn` parses to: the count mismatch is not detected
while parsing. -/
def mismatchBlock : Subst :=
  { template := some (.plain "\"t\"".data)
    comments := some []
    formal := some (.plain [['X'], ['Y']])
    actual := some [.row (.plain ["\"1\"".data])]
    eos_comment := none }

/-- A one-block document whose actual value `1` is not yet quoted. -/
def unquotedDoc : Subst :=
  { template := some (.plain "\"t\"".data)
    comments := some []
    formal := some (.plain [['X']])
    actual := some [.row (.plain [['1']])]
    eos_comment := none }

/-- C1: rendering is not a normal form. On the valid input `embQuoteIn`
(template block with the single unquoted value `ab"cd`) the first
parse-render pass succeeds and produces `embQuoteOut`, whose row value was
quoted into `"ab"cd"`; re-tokenising that line splits it into the two values
`"ab"` and `cd"`, so the second pass raises `ValueError` instead of
reproducing the bytes of the first pass: `render(parse(render(parse(x))))`
does not produce byte-identical output and in fact produces none at all. -/
theorem c1_idempotence_fails_on_embedded_quote :
    process "f".data embQuoteIn 4 2 120 = .ok (embQuoteOut, [])
    ∧ process "f".data embQuoteOut 4 2 120
      = .error (.valueError (mismatchMsg ["\"ab\"".data, "cd\"".data] 1)) :=
  ⟨rfl, rfl⟩

/-- C2 counterexample: the spec scenario input does not render to the four
claimed lines; the code pads each column to its computed width (which
includes the quoted actual values) and prints `spacing` blanks after every
comma in addition to the alignment gap. -/
theorem c2_scenario_output_differs :
    process "f".data scenarioIn 4 2 120 = .ok (scenarioRealOut, [])
    ∧ scenarioRealOut ≠ scenarioClaimedOut :=
  ⟨rfl, by decide⟩

/-- C2 amended: with indent=4, spacing=2, width=120 the scenario input
renders as the four lines `file "a.db" {`, `    pattern { X,    Y   }`,
`            { "1",  "2" }` and `}` (values padded to the 3-wide columns
derived from the quoted actuals, two spacing blanks after each comma). -/
theorem c2_scenario_render :
    process "f".data scenarioIn 4 2 120 = .ok (scenarioRealOut, []) :=
  rfl

lemma quote_str_of_unquoted (v : Str) (h1 : hasPre "\"".data v = false)
    (h2 : hasSuf "\"".data v = false) :
    quote_str v = "\"".data ++ v ++ "\"".data := by
  simp [quote_str, h1, h2]

lemma quote_str_of_edge_quote (v : Str)
    (h : hasPre "\"".data v = true ∨ hasSuf "\"".data v = true) :
    quote_str v = v := by
  rcases h with h | h <;> simp [quote_str, h]

lemma hasPre_quote_cons (x : Str) : hasPre "\"".data ('"' :: x) = true := by
  simp [hasPre, List.isPrefixOf]

lemma quote_str_idem (v : Str) : quote_str (quote_str v) = quote_str v := by
  by_cases h1 : hasPre "\"".data v = true
  · rw [quote_str_of_edge_quote v (Or.inl h1), quote_str_of_edge_quote v (Or.inl h1)]
  · by_cases h2 : hasSuf "\"".data v = true
    · rw [quote_str_of_edge_quote v (Or.inr h2), quote_str_of_edge_quote v (Or.inr h2)]
    · rw [quote_str_of_unquoted v (Bool.eq_false_iff.mpr h1) (Bool.eq_false_iff.mpr h2)]
      exact quote_str_of_edge_quote _ (Or.inl (hasPre_quote_cons _))

lemma quoteRow_fst (vs : List Str) : ∀ ws, (quoteRow vs ws).1 = vs.map quote_str := by
  induction vs with
  | nil => intro ws; rfl
  | cons v vs ih => intro ws; cases ws <;> simp [quoteRow, ih]

lemma quoteRow_len2 (vs : List Str) : ∀ ws, (quoteRow vs ws).2.length = ws.length := by
  induction vs with
  | nil => intro ws; rfl
  | cons v vs ih => intro ws; cases ws <;> simp [quoteRow, ih]

lemma quoteRow_ws_le (vs : List Str) :
    ∀ ws k, ws.getD k 0 ≤ (quoteRow vs ws).2.getD k 0 := by
  induction vs with
  | nil => intro ws k; exact Nat.le_refl _
  | cons v vs ih =>
    intro ws k
    cases ws with
    | nil => simp
    | cons w ws =>
      cases k with
      | zero => simp [quoteRow]
      | succ k => simpa [quoteRow] using ih ws k

lemma quoteRow_fit (vs : List Str) :
    ∀ ws, vs.length ≤ ws.length →
      ∀ k, ((quoteRow vs ws).1.getD k []).length ≤ (quoteRow vs ws).2.getD k 0 := by
  induction vs with
  | nil => intro ws _ k; simp [quoteRow]
  | cons v vs ih =>
    intro ws hlen k
    cases ws with
    | nil => simp at hlen
    | cons w ws =>
      cases k with
      | zero => simp [quoteRow]
      | succ k =>
        simpa [quoteRow] using ih ws (Nat.le_of_succ_le_succ hlen) k

lemma widthsLoop_rows (number : Nat) :
    ∀ (items : List ActualItem) (ws : List Nat) (a' : List ActualItem) (ws' : List Nat),
      widthsLoop number items ws = .ok (a', ws') → a' = items.map quoteActualItem := by
  intro items
  induction items with
  | nil => intro ws a' ws' h; simp [widthsLoop] at h; exact h.1
  | cons it rest ih =>
    intro ws a' ws' h
    cases it with
    | comment s =>
      simp only [widthsLoop] at h
      cases hr : widthsLoop number rest ws with
      | error e => rw [hr] at h; exact absurd h (by simp)
      | ok p =>
        rw [hr] at h
        obtain ⟨r', w'⟩ := p
        simp only at h
        cases h
        simp [quoteActualItem, ih _ _ _ hr]
    | row ann =>
      simp only [widthsLoop] at h
      by_cases hn : ann.item.length ≠ number
      · simp [hn] at h
      · simp only [hn, if_false] at h
        cases hr : widthsLoop number rest (quoteRow ann.item ws).2 with
        | error e => rw [hr] at h; exact absurd h (by simp)
        | ok p =>
          rw [hr] at h
          obtain ⟨r', w'⟩ := p
          simp only at h
          cases h
          have hrest := ih _ _ _ hr
          cases ann with
          | plain r => simp [quoteActualItem, hrest, quoteRow_fst, Ann.item]
          | wc r c => simp [quoteActualItem, hrest, quoteRow_fst, Ann.item]

lemma widthsLoop_ws_le (number : Nat) :
    ∀ (items : List ActualItem) (ws : List Nat) (a' : List ActualItem) (ws' : List Nat),
      widthsLoop number items ws = .ok (a', ws') → ∀ k, ws.getD k 0 ≤ ws'.getD k 0 := by
  intro items
  induction items with
  | nil => intro ws a' ws' h k; simp [widthsLoop] at h; rw [h.2]
  | cons it rest ih =>
    intro ws a' ws' h k
    cases it with
    | comment s =>
      simp only [widthsLoop] at h
      cases hr : widthsLoop number rest ws with
      | error e => rw [hr] at h; exact absurd h (by simp)
      | ok p =>
        rw [hr] at h
        obtain ⟨r', w'⟩ := p
        simp only at h
        cases h
        exact ih _ _ _ hr k
    | row ann =>
      simp only [widthsLoop] at h
      by_cases hn : ann.item.length ≠ number
      · simp [hn] at h
      · simp only [hn, if_false] at h
        cases hr : widthsLoop number rest (quoteRow ann.item ws).2 with
        | error e => rw [hr] at h; exact absurd h (by simp)
        | ok p =>
          rw [hr] at h
          obtain ⟨r', w'⟩ := p
          simp only at h
          cases h
          exact Nat.le_trans (quoteRow_ws_le ann.item ws k) (ih _ _ _ hr k)

lemma widthsLoop_fit (number : Nat) :
    ∀ (items : List ActualItem) (ws : List Nat) (a' : List ActualItem) (ws' : List Nat),
      widthsLoop number items ws = .ok (a', ws') → ws.length = number →
      ∀ ann, ActualItem.row ann ∈ a' →
        ann.item.length = number
        ∧ ∀ k, (ann.item.getD k []).length ≤ ws'.getD k 0 := by
  intro items
  induction items with
  | nil =>
    intro ws a' ws' h _ ann hmem
    simp [widthsLoop] at h
    rw [h.1] at hmem
    simp at hmem
  | cons it rest ih =>
    intro ws a' ws' h hwlen ann hmem
    cases it with
    | comment s =>
      simp only [widthsLoop] at h
      cases hr : widthsLoop number rest ws with
      | error e => rw [hr] at h; exact absurd h (by simp)
      | ok p =>
        rw [hr] at h
        obtain ⟨r', w'⟩ := p
        simp only at h
        cases h
        rcases List.mem_cons.mp hmem with hx | hx
        · exact absurd hx (by simp)
        · exact ih _ _ _ hr hwlen ann hx
    | row ann0 =>
      simp only [widthsLoop] at h
      by_cases hn : ann0.item.length ≠ number
      · simp [hn] at h
      · simp only [hn, if_false] at h
        have hn' : ann0.item.length = number := Classical.byContradiction fun hc => hn hc
        cases hr : widthsLoop number rest (quoteRow ann0.item ws).2 with
        | error e => rw [hr] at h; exact absurd h (by simp)
        | ok p =>
          rw [hr] at h
          obtain ⟨r', w'⟩ := p
          simp only at h
          cases h
          have hq2len : (quoteRow ann0.item ws).2.length = number := by
            rw [quoteRow_len2]; exact hwlen
          rcases List.mem_cons.mp hmem with hx | hx
          · have hitem : ann.item = (quoteRow ann0.item ws).1 := by
              cases ann0 with
              | plain r => cases hx; rfl
              | wc r c => cases hx; rfl
            constructor
            · rw [hitem, quoteRow_fst, List.length_map, hn']
            · intro k
              rw [hitem]
              exact Nat.le_trans
                (quoteRow_fit ann0.item ws (by rw [hwlen, ← hn']) k)
                (widthsLoop_ws_le number rest _ _ _ hr k)
          · exact ih _ _ _ hr hq2len ann hx

lemma widthsLoop_mismatch (number : Nat) :
    ∀ (items : List ActualItem) (ws : List Nat),
      (∃ ann, ActualItem.row ann ∈ items ∧ ann.item.length ≠ number) →
      ∃ r, (∃ ann, ActualItem.row ann ∈ items ∧ ann.item = r) ∧ r.length ≠ number
        ∧ widthsLoop number items ws = .error (.valueError (mismatchMsg r number)) := by
  intro items
  induction items with
  | nil => intro ws h; obtain ⟨ann, hmem, _⟩ := h; simp at hmem
  | cons it rest ih =>
    intro ws h
    cases it with
    | comment s =>
      obtain ⟨ann, hmem, hlen⟩ := h
      rcases List.mem_cons.mp hmem with hx | hx
      · exact absurd hx (by simp)
      · obtain ⟨r, ⟨ann', hmem', hitem'⟩, hrlen, herr⟩ := ih ws ⟨ann, hx, hlen⟩
        exact ⟨r, ⟨ann', List.mem_cons_of_mem _ hmem', hitem'⟩, hrlen, by
          simp only [widthsLoop, herr]⟩
    | row ann0 =>
      by_cases hn : ann0.item.length ≠ number
      · refine ⟨ann0.item, ⟨ann0, List.mem_cons_self _ _, rfl⟩, hn, ?_⟩
        simp [widthsLoop, hn]
      · obtain ⟨ann, hmem, hlen⟩ := h
        rcases List.mem_cons.mp hmem with hx | hx
        · have : ann.item = ann0.item := by cases hx; rfl
          exact absurd (this ▸ hlen) hn
        · obtain ⟨r, ⟨ann', hmem', hitem'⟩, hrlen, herr⟩ :=
            ih (quoteRow ann0.item ws).2 ⟨ann, hx, hlen⟩
          refine ⟨r, ⟨ann', List.mem_cons_of_mem _ hmem', hitem'⟩, hrlen, ?_⟩
          simp only [widthsLoop, hn, if_false, herr]

lemma wrapTotalsAux_le (spacing width : Nat) (h10 : 10 ≤ width) :
    ∀ (ws : List Nat) (total : Nat), total ≤ width →
      ∀ t ∈ wrapTotalsAux spacing width ws total, t ≤ width := by
  intro ws
  induction ws with
  | nil => intro total _ t ht; simp [wrapTotalsAux] at ht
  | cons w ws ih =>
    intro total htot t ht
    simp only [wrapTotalsAux] at ht
    by_cases ho : total + w + spacing + 1 > width
    · simp only [ho, if_true] at ht
      rcases List.mem_cons.mp ht with h | h
      · rw [h]; exact h10
      · exact ih 10 h10 t h
    · simp only [ho, if_false] at ht
      rcases List.mem_cons.mp ht with h | h
      · rw [h]; exact Nat.le_of_not_lt ho
      · exact ih _ (Nat.le_of_not_lt ho) t h

lemma calcNewlinesAux_eq_tensIdx (spacing width : Nat) :
    ∀ (ws : List Nat) (j total : Nat), 10 ≤ total →
      calcNewlinesAux spacing width ws j total
        = tensIdx (wrapTotalsAux spacing width ws total) j := by
  intro ws
  induction ws with
  | nil => intro j total _; rfl
  | cons w ws ih =>
    intro j total htot
    simp only [calcNewlinesAux, wrapTotalsAux]
    by_cases ho : total + w + spacing + 1 > width
    · simp only [ho, if_true, tensIdx]
      rw [ih (j + 1) 10 (Nat.le_refl 10)]
    · simp only [ho, if_false, tensIdx]
      have hne : ¬(total + w + spacing + 1 = 10) := by omega
      simp only [hne, if_false]
      exact ih (j + 1) _ (by omega)

/-- C3 counterexample: the actual-row value `ab"` of `halfQuoteIn` ends with
a double quote without starting with one, so `quote_str` leaves it alone and
it appears in the rendered output with no double quotes at all: the bare text
`{ ab" }` is an infix of the output and the quoted form `"ab""` appears
nowhere. Not every actual-row value is double-quoted in the output. -/
theorem c3_half_quoted_value_not_quoted :
    process "f".data halfQuoteIn 4 2 120 = .ok (halfQuoteOut, [])
    ∧ " \x7b ab\" \x7d".data <:+: halfQuoteOut
    ∧ ¬ "\"ab\"\"".data <:+: halfQuoteOut :=
  ⟨rfl, by decide, by decide⟩

/-- C3 amended: the widths pass rewrites every actual row to the `quote_str`
image of its values (comments and wrappers untouched); `quote_str` surrounds
a value with exactly one pair of double quotes when it neither starts nor
ends with one, and returns any value that starts or ends with a double quote
(in particular an already-quoted value) unchanged — so a value quoted on only
one side reaches the output without quotes. `quote_str` is idempotent: no
value is ever double-quoted twice. -/
theorem c3_quoting_policy :
    (∀ (number : Nat) (items : List ActualItem) (ws : List Nat)
       (a' : List ActualItem) (ws' : List Nat),
       widthsLoop number items ws = .ok (a', ws') → a' = items.map quoteActualItem)
    ∧ (∀ v : Str, hasPre "\"".data v = false → hasSuf "\"".data v = false →
        quote_str v = "\"".data ++ v ++ "\"".data)
    ∧ (∀ v : Str, hasPre "\"".data v = true ∨ hasSuf "\"".data v = true →
        quote_str v = v)
    ∧ (∀ v : Str, quote_str (quote_str v) = quote_str v) :=
  ⟨fun number items ws a' ws' h => widthsLoop_rows number items ws a' ws' h,
   quote_str_of_unquoted, quote_str_of_edge_quote, quote_str_idem⟩

/-- C3 witness: the policy evaluated on concrete data — the row `['1']` is
rewritten to `['"1"']` by a successful widths pass, `a` gains one pair of
quotes, `"a"` is left as is, and quoting the half-quoted `ab"` twice changes
nothing. -/
theorem c3_quoting_policy_witness :
    [ActualItem.row (Ann.plain ["\"1\"".data])]
      = [ActualItem.row (Ann.plain [['1']])].map quoteActualItem
    ∧ quote_str ['a'] = "\"a\"".data
    ∧ quote_str "\"a\"".data = "\"a\"".data
    ∧ quote_str (quote_str "ab\"".data) = quote_str "ab\"".data :=
  ⟨c3_quoting_policy.1 1 [ActualItem.row (Ann.plain [['1']])] [1]
      [ActualItem.row (Ann.plain ["\"1\"".data])] [3] rfl,
   c3_quoting_policy.2.1 ['a'] rfl rfl,
   c3_quoting_policy.2.2.1 "\"a\"".data (Or.inl rfl),
   c3_quoting_policy.2.2.2 "ab\"".data⟩

/-- C4 counterexample: at width 60 (in range) the block of `wideIn` renders
with two 65-character lines although its only values, `X` and the
49-character `wideVal`, are far below the width even after quoting: the
emitted line length is not bounded by `width` merely because no single value
exceeds it (the accumulator ignores the `indent`-long prefix, the trailing
brace, and the overflowing column itself is printed before any break). -/
theorem c4_line_exceeds_width :
    process "f".data wideIn 4 2 60 = .ok (wideOut, [])
    ∧ (∃ ln ∈ splitLines wideOut, 60 < ln.length)
    ∧ (∀ v ∈ [['X'], wideVal], (quote_str v).length ≤ 60) :=
  ⟨rfl, by decide, by decide⟩

/-- C4 amended: what the wrap computation actually guarantees for an in-range
width (width ≥ 60 ≥ 10): the running total it maintains — seeded at 10,
advanced by `w + spacing + 1` per column — never exceeds `width` after any
column, and the wrap points are exactly the columns whose entry was reset
to 10 because adding them would have pushed the total past `width`. Emitted
lines may still be longer than `width` (see the counterexample), because the
prefix beyond 10 columns, the wrap-triggering column itself, the closing
brace and trailing comments are all outside this budget. -/
theorem c4_wrap_budget (widths : List Nat) (spacing width : Nat) (h10 : 10 ≤ width) :
    (∀ t ∈ wrapTotals widths spacing width, t ≤ width)
    ∧ calcNewlines widths spacing width = tensIdx (wrapTotals widths spacing width) 0 :=
  ⟨wrapTotalsAux_le spacing width h10 widths 10 h10,
   calcNewlinesAux_eq_tensIdx spacing width widths 0 10 (Nat.le_refl 10)⟩

/-- C4 witness: the budget invariant at the concrete widths `[20, 30, 25]`
with spacing 2 and width 60. -/
theorem c4_wrap_budget_witness :
    (∀ t ∈ wrapTotals [20, 30, 25] 2 60, t ≤ 60)
    ∧ calcNewlines [20, 30, 25] 2 60 = tensIdx (wrapTotals [20, 30, 25] 2 60) 0 :=
  c4_wrap_budget [20, 30, 25] 2 60 (by decide)

/-- C8: a block whose actual row count disagrees with the formal row is a
render-time hard error, not a parse-time one. First conjunct: whenever some
actual row of a block has a length different from the formal length,
`generate_substitution` raises `ValueError` whose message names (the repr of)
an offending row, its item count and the expected count. Second conjunct: the
concrete input `mismatchIn` (formal `X, Y`, actual row `"1"`) parses
successfully — the violation is not detected while parsing. -/
theorem c8_count_mismatch_render_error :
    (∀ (d : Subst) (indent spacing width : Nat) (fAnn : Ann (List Str))
       (a0 : List ActualItem),
       d.formal = some fAnn → d.actual = some a0 →
       (∃ ann, ActualItem.row ann ∈ a0 ∧ ann.item.length ≠ fAnn.item.length) →
       ∃ r, (∃ ann, ActualItem.row ann ∈ a0 ∧ ann.item = r)
         ∧ r.length ≠ fAnn.item.length
         ∧ generate_substitution d indent spacing width
             = .error (.valueError (mismatchMsg r fAnn.item.length)))
    ∧ parse_text "f".data mismatchIn = .ok ([.sub mismatchBlock], []) := by
  constructor
  · intro d indent spacing width fAnn a0 hf ha hbad
    obtain ⟨r, hrmem, hrlen, herr⟩ := widthsLoop_mismatch fAnn.item.length a0
      (fAnn.item.map List.length) hbad
    refine ⟨r, hrmem, hrlen, ?_⟩
    simp only [generate_substitution, ha, hf, herr]
  · rfl

/-- C8 witness: the general render-error conjunct applied to the parsed block
of `mismatchIn` itself: rendering it fails with the ValueError naming the row
`['"1"']`, its count 1 and the expected count 2. -/
theorem c8_count_mismatch_witness :
    ∃ r, (∃ ann, ActualItem.row ann ∈ [ActualItem.row (Ann.plain ["\"1\"".data])]
            ∧ ann.item = r)
      ∧ r.length ≠ (Ann.plain [['X'], ['Y']] : Ann (List Str)).item.length
      ∧ generate_substitution mismatchBlock 4 2 120
          = .error (.valueError (mismatchMsg r (Ann.plain [['X'], ['Y']] : Ann (List Str)).item.length)) :=
  c8_count_mismatch_render_error.1 mismatchBlock 4 2 120 (Ann.plain [['X'], ['Y']])
    [ActualItem.row (Ann.plain ["\"1\"".data])] rfl rfl
    ⟨Ann.plain ["\"1\"".data], by decide, by decide⟩

/-- C9 counterexample: rendering is not read-only. On the one-block document
`unquotedDoc`, whose actual value `1` is unquoted, `generate` succeeds but
hands back a document whose row value has been rewritten to `"1"` in place —
the document after rendering differs from the one passed in. -/
theorem c9_generate_mutates_document :
    generate [.sub unquotedDoc] 4 2 120
      = .ok ("file \"t\" \x7b\n    pattern \x7b X   \x7d\n            \x7b \"1\" \x7d\n\x7d\n".data,
             [.sub { unquotedDoc with actual := some [.row (.plain ["\"1\"".data])] }])
    ∧ [DocItem.sub { unquotedDoc with actual := some [.row (.plain ["\"1\"".data])] }]
        ≠ [DocItem.sub unquotedDoc] :=
  ⟨rfl, by decide⟩

lemma generate_substitution_doc (d : Subst) (indent spacing width : Nat) (out : Str)
    (d' : Subst) (h : generate_substitution d indent spacing width = .ok (out, d')) :
    d' = { d with actual := d.actual.map (List.map quoteActualItem) } := by
  cases ha : d.actual with
  | none => simp [generate_substitution, ha] at h
  | some a0 =>
    cases hf : d.formal with
    | none => simp [generate_substitution, ha, hf] at h
    | some fAnn =>
      cases hwl : widthsLoop fAnn.item.length a0 (fAnn.item.map List.length) with
      | error e => simp [generate_substitution, ha, hf, hwl] at h
      | ok p =>
        obtain ⟨a', ws'⟩ := p
        cases ht : d.template with
        | none => simp [generate_substitution, ha, hf, hwl, ht] at h
        | some tAnn =>
          cases hc : d.comments with
          | none => simp [generate_substitution, ha, hf, hwl, ht, hc] at h
          | some cmts =>
            simp only [generate_substitution, ha, hf, hwl, ht, hc] at h
            rw [Except.ok.injEq, Prod.mk.injEq] at h
            rw [← h.2]
            simp [Option.map, widthsLoop_rows _ _ _ _ _ hwl]

lemma generate_doc :
    ∀ (src : List DocItem) (indent spacing width : Nat) (out : Str) (src' : List DocItem),
      generate src indent spacing width = .ok (out, src') → src' = src.map quoteDocItem := by
  intro src
  induction src with
  | nil =>
    intro indent spacing width out src' h
    simp [generate] at h
    rw [h.2]
    rfl
  | cons it rest ih =>
    intro indent spacing width out src' h
    cases it with
    | line s =>
      simp only [generate] at h
      cases hr : generate rest indent spacing width with
      | error e => rw [hr] at h; exact absurd h (by simp)
      | ok p =>
        rw [hr] at h
        obtain ⟨o, rest'⟩ := p
        simp only [Except.ok.injEq, Prod.mk.injEq] at h
        rw [← h.2]
        simp [quoteDocItem, ih _ _ _ _ _ hr]
    | sub d =>
      simp only [generate] at h
      cases hs : generate_substitution d indent spacing width with
      | error e => rw [hs] at h; exact absurd h (by simp)
      | ok p =>
        rw [hs] at h
        obtain ⟨o, d'⟩ := p
        cases hr : generate rest indent spacing width with
        | error e => rw [hr] at h; exact absurd h (by simp)
        | ok p2 =>
          rw [hr] at h
          obtain ⟨o2, rest'⟩ := p2
          simp only [Except.ok.injEq, Prod.mk.injEq] at h
          rw [← h.2]
          simp [quoteDocItem, ih _ _ _ _ _ hr,
            generate_substitution_doc d indent spacing width o d' hs]

/-- C9 amended: rendering is not read-only, but the only change it makes is
the in-place quoting of actual row values: `generate_substitution` hands back
the block with `template`, `comments`, `formal` and `eos_comment` untouched
and every actual row value replaced by its `quote_str` image (wrappers and
interleaved comment lines preserved), and `generate` does the same to every
block of the document. A document whose actual values are all `quote_str`
fixed points is returned unchanged. -/
theorem c9_render_mutates_only_actual_quoting :
    (∀ (d : Subst) (indent spacing width : Nat) (out : Str) (d' : Subst),
       generate_substitution d indent spacing width = .ok (out, d') →
       d' = { d with actual := d.actual.map (List.map quoteActualItem) })
    ∧ (∀ (src : List DocItem) (indent spacing width : Nat) (out : Str) (src' : List DocItem),
       generate src indent spacing width = .ok (out, src') → src' = src.map quoteDocItem) :=
  ⟨generate_substitution_doc, generate_doc⟩

/-- C9 witness: the amended mutation law evaluated on the concrete one-block
document `unquotedDoc`. -/
theorem c9_render_mutation_witness :
    [DocItem.sub { unquotedDoc with actual := some [.row (.plain ["\"1\"".data])] }]
      = [DocItem.sub unquotedDoc].map quoteDocItem :=
  c9_render_mutates_only_actual_quoting.2 [.sub unquotedDoc] 4 2 120
    "file \"t\" \x7b\n    pattern \x7b X   \x7d\n            \x7b \"1\" \x7d\n\x7d\n".data
    [DocItem.sub { unquotedDoc with actual := some [.row (.plain ["\"1\"".data])] }] rfl

/-- C6: totality of the transition table. For any parser configuration and
incoming token whose `(state, token-kind)` pair is not enumerated in the
if/elif chain (`handledPair`), `process_source` raises a `ParseError` whose
message carries the source name, line, column and the names of the offending
state and token; no unenumerated pair is silently skipped. -/
theorem c6_unhandled_pair_parse_error (srcName : Str) (cfg : PConfig) (t : Token)
    (h : handledPair cfg.state t.kind = false) :
    parseStep srcName cfg t = .err (.parseError (posMsg srcName t.lineno t.col
      ("unexpected state/token combination: ".data ++ cfg.state.pyName ++ "/".data
        ++ t.kind.pyName))) := by
  obtain ⟨res, st, tm, cm, fm, ac, ar, eo⟩ := cfg
  obtain ⟨k, lit, ln, co⟩ := t
  cases st <;> cases k <;> first
    | rfl
    | simp [handledPair] at h

/-- C6 witness: the unenumerated pair `(seek_file, comma)` raises the
ParseError naming it, at the initial configuration and position 3:7. -/
theorem c6_unhandled_pair_witness :
    handledPair States.seek_file Tokens.comma = false
    ∧ parseStep "f".data initConfig ⟨.comma, [], 3, 7⟩
        = .err (.parseError (posMsg "f".data 3 7
            ("unexpected state/token combination: ".data ++ States.seek_file.pyName
              ++ "/".data ++ Tokens.comma.pyName))) :=
  ⟨rfl, c6_unhandled_pair_parse_error "f".data initConfig ⟨.comma, [], 3, 7⟩ rfl⟩

/-- C10: an end-of-line comment arriving in state `seek_file` is attached as
the `eos_comment` of the last item of `result` — the most recently completed
block — overwriting its field in place; when `result` is empty the negative
index raises `IndexError` (a different exception from `ParseError`), exactly
as the unguarded `result[len(result) - 1]` does. -/
theorem c10_seek_file_eol_comment :
    (∀ (src : Str) (cfg : PConfig) (t : Token) (rs : List DocItem) (d : Subst),
       cfg.state = .seek_file → t.kind = .eol_comment →
       cfg.result = rs ++ [.sub d] →
       parseStep src cfg t
         = .cont { cfg with
                     result := rs ++ [.sub { d with eos_comment := some t.literal }] } [])
    ∧ (∀ (src : Str) (cfg : PConfig) (t : Token),
       cfg.state = .seek_file → t.kind = .eol_comment → cfg.result = [] →
       parseStep src cfg t = .err .indexError)
    ∧ (∀ msg : Str, PyErr.indexError ≠ PyErr.parseError msg) := by
  refine ⟨?_, ?_, ?_⟩
  · intro src cfg t rs d hs hk hr
    obtain ⟨res, st, tm, cm, fm, ac, ar, eo⟩ := cfg
    obtain ⟨k, lit, ln, co⟩ := t
    simp only at hs hk hr
    subst hs
    subst hk
    subst hr
    simp [parseStep, List.getLast?_concat, List.dropLast_concat]
  · intro src cfg t hs hk hr
    obtain ⟨res, st, tm, cm, fm, ac, ar, eo⟩ := cfg
    obtain ⟨k, lit, ln, co⟩ := t
    simp only at hs hk hr
    subst hs
    subst hk
    subst hr
    rfl
  · intro msg h
    exact PyErr.noConfusion h

/-- C10 witness: with one completed block in `result` the comment text `# c`
is attached to it, and from the empty initial configuration the same token
raises IndexError. -/
theorem c10_seek_file_eol_witness :
    parseStep "f".data
        { initConfig with result := [.sub trailingCommaBlock] }
        ⟨.eol_comment, "# c".data, 4, 4⟩
      = .cont { initConfig with
                  result := [.sub { trailingCommaBlock with eos_comment := some "# c".data }] } []
    ∧ parseStep "f".data initConfig ⟨.eol_comment, "# c".data, 4, 4⟩ = .err .indexError :=
  ⟨c10_seek_file_eol_comment.1 "f".data
      { initConfig with result := [.sub trailingCommaBlock] }
      ⟨.eol_comment, "# c".data, 4, 4⟩ [] trailingCommaBlock rfl rfl rfl,
   c10_seek_file_eol_comment.2.1 "f".data initConfig
      ⟨.eol_comment, "# c".data, 4, 4⟩ rfl rfl rfl⟩

/-- C7 counterexample: not every input whose only anomalies are stray commas
parses with warnings. An extra comma before the FIRST macro name
(`pattern { , X }`) or before the first value of a row (`{ , "1" }`) hits
`formal[len(formal) - 1]` / `actual_row[len(actual_row) - 1]` on an empty
list (subtidy_lib.py lines 425-426 and 478-479) and raises IndexError
instead of emitting a warning and continuing — the parse raises rather than
succeeding. -/
theorem c7_leading_comma_not_recovered :
    parse_text "f".data leadingCommaNameIn = .error PyErr.indexError
    ∧ parse_text "f".data leadingCommaValueIn = .error PyErr.indexError :=
  ⟨rfl, rfl⟩

/-- C7 amended: comma anomalies next to an already-seen name or value are
recovered with exactly one warning each and no error; a stray comma before
the first name or value of its list is not recovered (IndexError, see the
counterexample). The first conjunct is the spec scenario: the formal list
`{ X, Y, }` with a stray trailing comma parses successfully, emits exactly
one warning, and yields formal = [X, Y]. The remaining conjuncts cover each
recovery transition of the table — extra comma after a macro name (seen at
`seek_name` via comma or close-brace), missing comma between macro names,
extra comma after a value (at `seek_value` via comma or close-brace) and
missing comma between values — each continuing the parse with exactly one
warning and no exception, provided a preceding name/value exists (the
hypothesis the code's negative indexing makes necessary). -/
theorem c7_comma_recovery_warns :
    parse_text "f".data trailingCommaIn
      = .ok ([.sub trailingCommaBlock],
             [posMsg "f".data 2 17
               ("extra comma following macro name ".data ++ ['Y'] ++ " removed".data)])
    ∧ (∀ (src : Str) (cfg : PConfig) (t : Token) (l : List Str) (nm : Str),
       cfg.state = .seek_name → t.kind = .comma →
       cfg.formal = some (.plain (l ++ [nm])) →
       parseStep src cfg t = .cont cfg
         [posMsg src t.lineno t.col
           ("extra comma following macro name ".data ++ nm ++ " removed".data)])
    ∧ (∀ (src : Str) (cfg : PConfig) (t : Token) (l : List Str) (nm : Str),
       cfg.state = .seek_name → t.kind = .close_brace →
       cfg.formal = some (.plain (l ++ [nm])) →
       parseStep src cfg t = .cont { cfg with state := .start_actual_first }
         [posMsg src t.lineno t.col
           ("extra comma following macro name ".data ++ nm ++ " removed".data)])
    ∧ (∀ (src : Str) (cfg : PConfig) (t : Token) (l : List Str) (nm : Str),
       cfg.state = .post_name → t.kind = .name →
       cfg.formal = some (.plain (l ++ [nm])) →
       parseStep src cfg t
         = .cont { cfg with formal := some (.plain ((l ++ [nm]) ++ [t.literal])),
                            state := .post_name }
           [posMsg src t.lineno t.col
             ("missing comma between macro names ".data ++ nm ++ " and ".data ++ t.literal)])
    ∧ (∀ (src : Str) (cfg : PConfig) (t : Token) (r : List Str) (lv : Str),
       cfg.state = .seek_value → t.kind = .comma →
       cfg.actual_row = some (r ++ [lv]) →
       parseStep src cfg t = .cont cfg
         [posMsg src t.lineno t.col
           ("extra comma following value ".data ++ lv ++ " removed".data)])
    ∧ (∀ (src : Str) (cfg : PConfig) (t : Token) (r : List Str) (lv : Str)
         (a : List ActualItem),
       cfg.state = .seek_value → t.kind = .close_brace →
       cfg.actual_row = some (r ++ [lv]) → cfg.actual = some a →
       parseStep src cfg t
         = .cont { cfg with actual := some (a ++ [.row (.plain (r ++ [lv]))]),
                            actual_row := none, state := .start_actual_next }
           [posMsg src t.lineno t.col
             ("extra comma following value ".data ++ lv ++ " removed".data)])
    ∧ (∀ (src : Str) (cfg : PConfig) (t : Token) (r : List Str) (lv : Str),
       cfg.state = .post_value → (t.kind = .name ∨ t.kind = .value) →
       cfg.actual_row = some (r ++ [lv]) →
       parseStep src cfg t
         = .cont { cfg with actual_row := some ((r ++ [lv]) ++ [t.literal]),
                            state := .post_value }
           [posMsg src t.lineno t.col
             ("missing comma between values ".data ++ lv ++ " and ".data ++ t.literal)]) := by
  refine ⟨rfl, ?_, ?_, ?_, ?_, ?_, ?_⟩
  · intro src cfg t l nm hs hk hf
    obtain ⟨res, st, tm, cm, fm, ac, ar, eo⟩ := cfg
    obtain ⟨k, lit, ln, co⟩ := t
    simp only at hs hk hf
    subst hs; subst hk; subst hf
    simp [parseStep, lastOfFormal, List.getLast?_concat]
  · intro src cfg t l nm hs hk hf
    obtain ⟨res, st, tm, cm, fm, ac, ar, eo⟩ := cfg
    obtain ⟨k, lit, ln, co⟩ := t
    simp only at hs hk hf
    subst hs; subst hk; subst hf
    simp [parseStep, lastOfFormal, List.getLast?_concat]
  · intro src cfg t l nm hs hk hf
    obtain ⟨res, st, tm, cm, fm, ac, ar, eo⟩ := cfg
    obtain ⟨k, lit, ln, co⟩ := t
    simp only at hs hk hf
    subst hs; subst hk; subst hf
    simp [parseStep, lastOfFormal, List.getLast?_concat]
  · intro src cfg t r lv hs hk hr
    obtain ⟨res, st, tm, cm, fm, ac, ar, eo⟩ := cfg
    obtain ⟨k, lit, ln, co⟩ := t
    simp only at hs hk hr
    subst hs; subst hk; subst hr
    simp [parseStep, lastOfRow, List.getLast?_concat]
  · intro src cfg t r lv a hs hk hr ha
    obtain ⟨res, st, tm, cm, fm, ac, ar, eo⟩ := cfg
    obtain ⟨k, lit, ln, co⟩ := t
    simp only at hs hk hr ha
    subst hs; subst hk; subst hr; subst ha
    simp [parseStep, lastOfRow, List.getLast?_concat]
  · intro src cfg t r lv hs hk hr
    obtain ⟨res, st, tm, cm, fm, ac, ar, eo⟩ := cfg
    obtain ⟨k, lit, ln, co⟩ := t
    simp only at hs hk hr
    subst hs; subst hr
    rcases hk with hk | hk <;> subst hk <;>
      simp [parseStep, lastOfRow, List.getLast?_concat]

/-- C7 witness: each recovery transition evaluated at a concrete
configuration — every step continues with exactly one warning. -/
theorem c7_comma_recovery_witness :
    parseStep "f".data
        { initConfig with state := .seek_name, formal := some (.plain [['X']]) }
        ⟨.comma, [], 2, 5⟩
      = .cont { initConfig with state := .seek_name, formal := some (.plain [['X']]) }
          [posMsg "f".data 2 5
            ("extra comma following macro name ".data ++ ['X'] ++ " removed".data)]
    ∧ parseStep "f".data
        { initConfig with state := .seek_name, formal := some (.plain [['X']]) }
        ⟨.close_brace, [], 2, 6⟩
      = .cont { initConfig with
                  state := .start_actual_first
                  formal := some (.plain [['X']]) }
          [posMsg "f".data 2 6
            ("extra comma following macro name ".data ++ ['X'] ++ " removed".data)]
    ∧ parseStep "f".data
        { initConfig with state := .post_name, formal := some (.plain [['X']]) }
        ⟨.name, ['Y'], 2, 7⟩
      = .cont { initConfig with
                  state := .post_name
                  formal := some (.plain [['X'], ['Y']]) }
          [posMsg "f".data 2 7
            ("missing comma between macro names ".data ++ ['X'] ++ " and ".data ++ ['Y'])]
    ∧ parseStep "f".data
        { initConfig with
            state := .seek_value
            actual := some []
            actual_row := some [['1']] }
        ⟨.comma, [], 3, 5⟩
      = .cont { initConfig with
                  state := .seek_value
                  actual := some []
                  actual_row := some [['1']] }
          [posMsg "f".data 3 5
            ("extra comma following value ".data ++ ['1'] ++ " removed".data)]
    ∧ parseStep "f".data
        { initConfig with
            state := .seek_value
            actual := some []
            actual_row := some [['1']] }
        ⟨.close_brace, [], 3, 6⟩
      = .cont { initConfig with
                  state := .start_actual_next
                  actual := some [.row (.plain [['1']])]
                  actual_row := none }
          [posMsg "f".data 3 6
            ("extra comma following value ".data ++ ['1'] ++ " removed".data)]
    ∧ parseStep "f".data
        { initConfig with
            state := .post_value
            actual := some []
            actual_row := some [['1']] }
        ⟨.name, ['2'], 3, 7⟩
      = .cont { initConfig with
                  state := .post_value
                  actual := some []
                  actual_row := some [['1'], ['2']] }
          [posMsg "f".data 3 7
            ("missing comma between values ".data ++ ['1'] ++ " and ".data ++ ['2'])] :=
  ⟨c7_comma_recovery_warns.2.1 "f".data _ ⟨.comma, [], 2, 5⟩ [] ['X'] rfl rfl rfl,
   c7_comma_recovery_warns.2.2.1 "f".data _ ⟨.close_brace, [], 2, 6⟩ [] ['X'] rfl rfl rfl,
   c7_comma_recovery_warns.2.2.2.1 "f".data _ ⟨.name, ['Y'], 2, 7⟩ [] ['X'] rfl rfl rfl,
   c7_comma_recovery_warns.2.2.2.2.1 "f".data _ ⟨.comma, [], 3, 5⟩ [] ['1'] rfl rfl rfl,
   c7_comma_recovery_warns.2.2.2.2.2.1 "f".data _ ⟨.close_brace, [], 3, 6⟩ [] ['1'] [] rfl rfl rfl rfl,
   c7_comma_recovery_warns.2.2.2.2.2.2 "f".data _ ⟨.name, ['2'], 3, 7⟩ [] ['1'] rfl (Or.inl rfl) rfl⟩

lemma takeWhile_append_of_all (p : Char → Bool) :
    ∀ (l₁ l₂ : List Char), (∀ c ∈ l₁, p c = true) →
      List.takeWhile p (l₁ ++ l₂) = l₁ ++ List.takeWhile p l₂ := by
  intro l₁
  induction l₁ with
  | nil => intro l₂ _; rfl
  | cons c t ih =>
    intro l₂ h
    simp [List.takeWhile_cons, h c (by simp), ih l₂ (fun x hx => h x (by simp [hx]))]

lemma takeWhile_append_of_stop (p : Char → Bool) :
    ∀ (l₁ l₂ : List Char), ¬(∀ c ∈ l₁, p c = true) →
      List.takeWhile p (l₁ ++ l₂) = List.takeWhile p l₁ := by
  intro l₁
  induction l₁ with
  | nil => intro l₂ h; exact absurd (by simp) h
  | cons c t ih =>
    intro l₂ h
    by_cases hc : p c = true
    · have ht : ¬(∀ x ∈ t, p x = true) := fun hall => h (by
        intro x hx
        rcases List.mem_cons.mp hx with rfl | hx
        · exact hc
        · exact hall x hx)
      simp only [List.cons_append, List.takeWhile_cons, hc, ih l₂ ht]
    · simp only [List.cons_append, List.takeWhile_cons]
      rw [Bool.eq_false_iff.mpr hc]
      simp

lemma lineLen_append_no_nl (a b : Str) (h : ∀ c ∈ b, (c != '\n') = true) :
    lineLen (a ++ b) = lineLen a + b.length := by
  unfold lineLen
  rw [List.reverse_append,
    takeWhile_append_of_all _ b.reverse a.reverse (fun c hc => h c (List.mem_reverse.mp hc))]
  simp [Nat.add_comm]

lemma lineLen_append_nl (a b : Str) (h : '\n' ∈ b) :
    lineLen (a ++ b) = lineLen b := by
  unfold lineLen
  rw [List.reverse_append, takeWhile_append_of_stop]
  intro hall
  have := hall '\n' (List.mem_reverse.mpr h)
  simp at this

lemma lineLen_of_no_nl (b : Str) (h : ∀ c ∈ b, (c != '\n') = true) :
    lineLen b = b.length := by
  have := lineLen_append_no_nl [] b h
  simpa [lineLen] using this

lemma getD_map_length :
    ∀ (l : List Str) (k : Nat), (l.map List.length).getD k 0 = (l.getD k []).length := by
  intro l
  induction l with
  | nil => intro k; simp
  | cons x t ih =>
    intro k
    cases k with
    | zero => simp
    | succ n => exact ih n

/-- Unfolding of one cell of `rowCellsAux`. -/
lemma rowCellsAux_cons (number : Nat) (widths : List Nat) (spaces : Str)
    (newlines : List Nat) (plen j : Nat) (nm : Str) (rest : List Str) :
    rowCellsAux number widths spaces newlines plen j (nm :: rest)
      = nm ++ (if j < number - 1 then ",".data ++ spaces else [])
           ++ (if j ∈ newlines ∧ j < number - 1 then
                 "\n".data ++ repl plen ' ' ++ "   ".data
               else repl (widths.getD j 0 - nm.length) ' ')
           ++ rowCellsAux number widths spaces newlines plen (j + 1) rest := by
  simp [rowCellsAux]

lemma rowCellsAux_append (number : Nat) (widths : List Nat) (spaces : Str)
    (newlines : List Nat) (plen : Nat) :
    ∀ (xs ys : List Str) (j : Nat),
      rowCellsAux number widths spaces newlines plen j (xs ++ ys)
        = rowCellsAux number widths spaces newlines plen j xs
          ++ rowCellsAux number widths spaces newlines plen (j + xs.length) ys := by
  intro xs
  induction xs with
  | nil => intro ys j; simp [rowCellsAux]
  | cons x xs ih =>
    intro ys j
    have h1 : j + (xs.length + 1) = j + 1 + xs.length := by omega
    rw [List.cons_append, rowCellsAux_cons, rowCellsAux_cons, ih ys (j + 1),
      List.length_cons, h1]
    simp [List.append_assoc]

lemma cells_lineLen (widths : List Nat) (newlines : List Nat) (number plen sp : Nat) :
    ∀ (m : Nat) (names : List Str) (j : Nat) (pre : Str),
      m ≤ names.length → j + m < number →
      (∀ k, k < m → (names.getD k []).length ≤ widths.getD (j + k) 0) →
      (∀ nm ∈ names, ∀ c ∈ nm, (c != '\n') = true) →
      lineLen pre = colAfter plen sp widths newlines number j →
      lineLen (pre ++ rowCellsAux number widths (repl sp ' ') newlines plen j (names.take m))
        = colAfter plen sp widths newlines number (j + m) := by
  intro m
  induction m with
  | zero =>
    intro names j pre _ _ _ _ hpre
    simpa [rowCellsAux] using hpre
  | succ m ih =>
    intro names j pre hm hjm hfit hnl hpre
    cases names with
    | nil => simp at hm
    | cons nm rest =>
      have hj : j < number - 1 := by omega
      have hw0 : nm.length ≤ widths.getD j 0 := by
        have := hfit 0 (Nat.succ_pos m)
        simpa using this
      have hnmnl : ∀ c ∈ nm, (c != '\n') = true := hnl nm (by simp)
      have hspnl : ∀ c ∈ (repl sp ' ' : Str), (c != '\n') = true := by
        intro c hc
        rw [List.eq_of_mem_replicate hc]
        decide
      -- conditions for the induction hypothesis at j + 1
      have hm' : m ≤ rest.length := by
        simp at hm
        omega
      have hjm' : (j + 1) + m < number := by omega
      have hfit' : ∀ k, k < m → (rest.getD k []).length ≤ widths.getD ((j + 1) + k) 0 := by
        intro k hk
        have := hfit (k + 1) (by omega)
        have harr : j + (k + 1) = (j + 1) + k := by omega
        rw [harr] at this
        exact this
      have hnl' : ∀ x ∈ rest, ∀ c ∈ x, (c != '\n') = true := by
        intro x hx
        exact hnl x (by simp [hx])
      have hgoalidx : j + (m + 1) = (j + 1) + m := by omega
      rw [List.take_succ_cons, rowCellsAux_cons, if_pos hj, hgoalidx]
      by_cases hmem : j ∈ newlines
      · rw [if_pos ⟨hmem, hj⟩]
        set cellEnd : Str := "\n".data ++ repl plen ' ' ++ "   ".data with hce
        set recCells : Str :=
          rowCellsAux number widths (repl sp ' ') newlines plen (j + 1) (rest.take m) with hrc
        have hgrp : pre ++ (nm ++ (",".data ++ repl sp ' ') ++ cellEnd ++ recCells)
            = (pre ++ (nm ++ (",".data ++ repl sp ' ') ++ cellEnd)) ++ recCells := by
          simp [List.append_assoc]
        rw [hgrp]
        refine ih rest (j + 1) _ hm' hjm' hfit' hnl' ?_
        have hsplit : pre ++ (nm ++ (",".data ++ repl sp ' ') ++ cellEnd)
            = (pre ++ nm ++ ",".data ++ repl sp ' ') ++ (['\n'] ++ (repl plen ' ' ++ "   ".data)) := by
          rw [hce]
          simp [List.append_assoc]
        rw [hsplit, lineLen_append_nl _ _ (by simp),
          lineLen_append_no_nl ['\n'] _ (by
            intro c hc
            rcases List.mem_append.mp hc with hc | hc
            · rw [List.eq_of_mem_replicate hc]; decide
            · fin_cases hc <;> decide)]
        have h1 : lineLen ['\n'] = 0 := by decide
        have h2 : (repl plen ' ' ++ "   ".data : Str).length = plen + 3 := by simp [repl]
        rw [h1, h2, colAfter, if_pos ⟨hmem, hj⟩]
        omega
      · rw [if_neg (fun hc => hmem hc.1)]
        set gap : Str := repl (widths.getD j 0 - nm.length) ' ' with hgap
        set recCells : Str :=
          rowCellsAux number widths (repl sp ' ') newlines plen (j + 1) (rest.take m) with hrc
        have hgrp : pre ++ (nm ++ (",".data ++ repl sp ' ') ++ gap ++ recCells)
            = (pre ++ (nm ++ (",".data ++ repl sp ' ') ++ gap)) ++ recCells := by
          simp [List.append_assoc]
        rw [hgrp]
        refine ih rest (j + 1) _ hm' hjm' hfit' hnl' ?_
        have hnonl : ∀ c ∈ (nm ++ (",".data ++ repl sp ' ') ++ gap : Str), (c != '\n') = true := by
          intro c hc
          rcases List.mem_append.mp hc with hc | hc
          · rcases List.mem_append.mp hc with hc | hc
            · exact hnmnl c hc
            · rcases List.mem_append.mp hc with hc | hc
              · fin_cases hc; rfl
              · exact hspnl c hc
          · rw [hgap] at hc
            rw [List.eq_of_mem_replicate hc]
            decide
        rw [lineLen_append_no_nl _ _ hnonl, hpre]
        have hlen : (nm ++ (",".data ++ repl sp ' ') ++ gap : Str).length
            = widths.getD j 0 + 1 + sp := by
          rw [hgap]
          simp [repl]
          rw [List.getD_eq_getElem?_getD] at hw0
          omega
        rw [hlen, colAfter, if_neg (fun hc => hmem hc.1)]
        omega

lemma no_nl_of_all_spaces (n : Nat) : ∀ c ∈ (repl n ' ' : Str), (c != '\n') = true := by
  intro c hc
  rw [List.eq_of_mem_replicate hc]
  decide

/-- C5: column alignment. For any block whose widths pass succeeded (the
formal row `fAnn`, the processed actual list `a'` and the final column widths
`widths` as computed by `widthsLoop` from the formal name lengths), every
value position `j` starts at the same rendered column in the formal row and
in every actual row of the block: the `pattern` prefix and the blank actual
prefix have the same length, both rows are laid out with the same widths,
spacing and wrap points, and every entry fits its column width. The second
conjunct certifies that `rowStartCol` measures a genuine prefix of the text
produced by `generate_row`. Values and names may not contain newlines (true
of anything the line-based tokenizer can produce). -/
theorem c5_column_alignment
    (fAnn : Ann (List Str)) (a0 a' : List ActualItem) (widths : List Nat)
    (indent spacing width : Nat)
    (hw : widthsLoop fAnn.item.length a0 (fAnn.item.map List.length) = .ok (a', widths))
    (hnlF : ∀ nm ∈ fAnn.item, '\n' ∉ nm)
    (ann : Ann (List Str)) (hann : ActualItem.row ann ∈ a')
    (hnlA : ∀ v ∈ ann.item, '\n' ∉ v)
    (j : Nat) (hj : j < fAnn.item.length) :
    rowStartCol fAnn widths (repl indent ' ' ++ "pattern".data) (repl spacing ' ')
        (calcNewlines widths spacing width) j
      = rowStartCol ann widths (repl indent ' ' ++ repl 7 ' ') (repl spacing ' ')
          (calcNewlines widths spacing width) j
    ∧ (∀ (item : Ann (List Str)) (pfx : Str) (jj : Nat), ∃ restOut,
        generate_row item widths pfx (repl spacing ' ') (calcNewlines widths spacing width)
          = (pfx ++ " \x7b ".data
              ++ rowCellsAux item.item.length widths (repl spacing ' ')
                   (calcNewlines widths spacing width) pfx.length 0 (item.item.take jj))
            ++ restOut) := by
  constructor
  · set N := fAnn.item.length with hN
    set nls := calcNewlines widths spacing width with hnls
    obtain ⟨hlenA, hfitA⟩ :=
      widthsLoop_fit N a0 (fAnn.item.map List.length) a' widths hw
        (by simp) ann hann
    have hfitF : ∀ k, (fAnn.item.getD k []).length ≤ widths.getD k 0 := by
      intro k
      have h1 := widthsLoop_ws_le N a0 (fAnn.item.map List.length) a' widths hw k
      rw [getD_map_length] at h1
      exact h1
    have h7 : ("pattern".data : Str).length = 7 := rfl
    have h3 : (" \x7b ".data : Str).length = 3 := rfl
    have hlF : (repl indent ' ' ++ "pattern".data : Str).length = indent + 7 := by
      simp [repl, h7]
    have hlA : (repl indent ' ' ++ repl 7 ' ' : Str).length = indent + 7 := by
      simp [repl]
    have hnlF' : ∀ nm ∈ fAnn.item, ∀ c ∈ nm, (c != '\n') = true := by
      intro nm hm c hc
      exact bne_iff_ne.mpr (fun heq => hnlF nm hm (heq ▸ hc))
    have hnlA' : ∀ v ∈ ann.item, ∀ c ∈ v, (c != '\n') = true := by
      intro v hv c hc
      exact bne_iff_ne.mpr (fun heq => hnlA v hv (heq ▸ hc))
    have hpatnl : ∀ c ∈ ("pattern".data : Str), (c != '\n') = true := by
      intro c hc
      fin_cases hc <;> rfl
    have hbrnl : ∀ c ∈ (" \x7b ".data : Str), (c != '\n') = true := by
      intro c hc
      fin_cases hc <;> rfl
    have hbaseF :
        lineLen ((repl indent ' ' ++ "pattern".data) ++ " \x7b ".data)
          = colAfter (repl indent ' ' ++ "pattern".data : Str).length spacing widths nls N 0 := by
      rw [lineLen_of_no_nl _ (by
        intro c hc
        rcases List.mem_append.mp hc with hc | hc
        · rcases List.mem_append.mp hc with hc | hc
          · exact no_nl_of_all_spaces indent c hc
          · exact hpatnl c hc
        · exact hbrnl c hc)]
      simp [colAfter, h3]
    have hbaseA :
        lineLen ((repl indent ' ' ++ repl 7 ' ') ++ " \x7b ".data)
          = colAfter (repl indent ' ' ++ repl 7 ' ' : Str).length spacing widths nls N 0 := by
      rw [lineLen_of_no_nl _ (by
        intro c hc
        rcases List.mem_append.mp hc with hc | hc
        · rcases List.mem_append.mp hc with hc | hc
          · exact no_nl_of_all_spaces indent c hc
          · exact no_nl_of_all_spaces 7 c hc
        · exact hbrnl c hc)]
      simp [colAfter, h3]
      omega
    have hF :
        rowStartCol fAnn widths (repl indent ' ' ++ "pattern".data) (repl spacing ' ') nls j
          = colAfter (indent + 7) spacing widths nls N j := by
      unfold rowStartCol
      have := cells_lineLen widths nls N (repl indent ' ' ++ "pattern".data : Str).length
        spacing j fAnn.item 0 ((repl indent ' ' ++ "pattern".data) ++ " \x7b ".data)
        (Nat.le_of_lt hj) (by simpa using hj)
        (by intro k hk; simpa using hfitF k) hnlF' hbaseF
      simpa [hlF, List.append_assoc] using this
    have hA :
        rowStartCol ann widths (repl indent ' ' ++ repl 7 ' ') (repl spacing ' ') nls j
          = colAfter (indent + 7) spacing widths nls N j := by
      unfold rowStartCol
      rw [hlenA]
      have := cells_lineLen widths nls N (repl indent ' ' ++ repl 7 ' ' : Str).length
        spacing j ann.item 0 ((repl indent ' ' ++ repl 7 ' ') ++ " \x7b ".data)
        (by rw [hlenA]; exact Nat.le_of_lt hj) (by simpa using hj)
        (by intro k hk; simpa using hfitA k) hnlA' hbaseA
      simpa [hlA, List.append_assoc] using this
    rw [hF, hA]
  · intro item pfx jj
    refine ⟨rowCellsAux item.item.length widths (repl spacing ' ')
        (calcNewlines widths spacing width) pfx.length (0 + (item.item.take jj).length)
        (item.item.drop jj)
      ++ (match item with
          | .wc _ cc => " \x7d  ".data ++ cc ++ "\n".data
          | .plain _ => " \x7d\n".data), ?_⟩
    cases item with
    | plain l =>
      show pfx ++ " \x7b ".data
          ++ rowCellsAux l.length widths (repl spacing ' ')
               (calcNewlines widths spacing width) pfx.length 0 l
          ++ " \x7d\n".data = _
      conv_lhs => rw [← List.take_append_drop jj l]
      rw [rowCellsAux_append]
      simp [Ann.item, List.append_assoc, List.take_append_drop]
    | wc l cc =>
      show pfx ++ " \x7b ".data
          ++ rowCellsAux l.length widths (repl spacing ' ')
               (calcNewlines widths spacing width) pfx.length 0 l
          ++ (" \x7d  ".data ++ cc ++ "\n".data) = _
      conv_lhs => rw [← List.take_append_drop jj l]
      rw [rowCellsAux_append]
      simp [Ann.item, List.append_assoc, List.take_append_drop]

/-- C5 witness: alignment of position 1 between the formal row `X, Y` and
the quoted actual row `"1", "ab"` with widths `[3, 4]`, indent 4, spacing 2,
width 120. -/
theorem c5_column_alignment_witness :
    rowStartCol (Ann.plain [['X'], ['Y']]) [3, 4] (repl 4 ' ' ++ "pattern".data)
        (repl 2 ' ') (calcNewlines [3, 4] 2 120) 1
      = rowStartCol (Ann.plain ["\"1\"".data, "\"ab\"".data]) [3, 4]
          (repl 4 ' ' ++ repl 7 ' ') (repl 2 ' ') (calcNewlines [3, 4] 2 120) 1
    ∧ (∀ (item : Ann (List Str)) (pfx : Str) (jj : Nat), ∃ restOut,
        generate_row item [3, 4] pfx (repl 2 ' ') (calcNewlines [3, 4] 2 120)
          = (pfx ++ " \x7b ".data
              ++ rowCellsAux item.item.length [3, 4] (repl 2 ' ')
                   (calcNewlines [3, 4] 2 120) pfx.length 0 (item.item.take jj))
            ++ restOut) :=
  c5_column_alignment (Ann.plain [['X'], ['Y']])
    [ActualItem.row (Ann.plain [['1'], "ab".data])]
    [ActualItem.row (Ann.plain ["\"1\"".data, "\"ab\"".data])]
    [3, 4] 4 2 120 rfl (by decide)
    (Ann.plain ["\"1\"".data, "\"ab\"".data]) (by decide) (by decide) 1 (by decide)

end Subtidy